import Mathlib

/-!
Verification development for the ARRL 10 GHz web logger/analyzer.

The repository's visible TypeScript sources are the AWS CDK deployment stack
(`infrastructure/arrl-10ghz-web-stack.ts`, `infrastructure/app.ts`) together
with build/deploy scripts and documentation; the contest-log processing engine
itself (`lambda/functions/process/process.py`) is referenced by the project
layout but its body is not part of the visible sources.  Consequently the
processing-engine definitions below are modelled from the specification's
words (each such definition says so in its doc comment), while the deployment
stack is embedded directly from `arrl-10ghz-web-stack.ts`.
-/

namespace ArrlTenGhz

/-! ## Decimal digit rendering and parsing

Shared machinery used by the modelled CabrilloWriter (zero-padded date and
time fields) and by the modelled Canonicalizer (parsing those fields back).
-/

/-- The character for a single decimal digit value. -/
def digitChar (d : Nat) : Char := Char.ofNat (48 + d)

/-- Numeric value of a decimal digit character. -/
def charVal (c : Char) : Nat := c.toNat - 48

/-- Boolean test for a decimal digit character. -/
def isDig (c : Char) : Bool := 48 ≤ c.toNat && c.toNat ≤ 57

/-- Little-endian decimal digits of `n`, by structural recursion on a
fuel bound so that the definition evaluates inside the kernel. -/
def natDigitsAux : Nat → Nat → List Nat
  | 0, _ => []
  | fuel + 1, n => if n = 0 then [] else n % 10 :: natDigitsAux fuel (n / 10)

/-- Little-endian decimal digits of `n` (empty for 0). -/
def natDigits (n : Nat) : List Nat := natDigitsAux n n

theorem natDigitsAux_eq (fuel : Nat) :
    ∀ n : Nat, n ≤ fuel → natDigitsAux fuel n = Nat.digits 10 n := by
  induction fuel with
  | zero =>
    intro n hn
    interval_cases n
    simp [natDigitsAux]
  | succ fuel ih =>
    intro n hn
    rw [natDigitsAux]
    by_cases h0 : n = 0
    · subst h0; simp
    · rw [if_neg h0, Nat.digits_def' (by norm_num) (Nat.pos_of_ne_zero h0),
        ih (n / 10) (by omega)]

theorem natDigits_eq (n : Nat) : natDigits n = Nat.digits 10 n :=
  natDigitsAux_eq n n le_rfl

/-- Render `n` in decimal, left-padded with zeros to width `w`. -/
def digitsRender (w n : Nat) : List Char :=
  List.replicate (w - ((natDigits n).reverse.map digitChar).length) '0' ++
    (natDigits n).reverse.map digitChar

/-- Value of a digit-character list read most-significant first. -/
def valDigits (cs : List Char) : Nat :=
  cs.foldl (fun acc c => acc * 10 + charVal c) 0

/-- Parse a nonempty all-digit character list as a decimal number. -/
def parseDigits (cs : List Char) : Option Nat :=
  if cs ≠ [] ∧ cs.all isDig = true then some (valDigits cs) else none

theorem charVal_digitChar {d : Nat} (h : d < 10) : charVal (digitChar d) = d := by
  interval_cases d <;> rfl

theorem isDig_digitChar {d : Nat} (h : d < 10) : isDig (digitChar d) = true := by
  interval_cases d <;> rfl

theorem foldl_val_digitChar (ds : List Nat) (h : ∀ d ∈ ds, d < 10) (acc : Nat) :
    List.foldl (fun acc c => acc * 10 + charVal c) acc (ds.map digitChar)
      = acc * 10 ^ ds.length + Nat.ofDigits 10 ds.reverse := by
  induction ds generalizing acc with
  | nil => simp [Nat.ofDigits]
  | cons d ds ih =>
    simp only [List.map_cons, List.foldl_cons]
    rw [ih (fun x hx => h x (List.mem_cons_of_mem _ hx)),
      charVal_digitChar (h d (List.mem_cons_self _ _)),
      List.reverse_cons, Nat.ofDigits_append]
    simp [Nat.ofDigits]
    ring

theorem foldl_val_replicate_zero (k : Nat) :
    List.foldl (fun acc c => acc * 10 + charVal c) 0 (List.replicate k '0') = 0 := by
  induction k with
  | zero => rfl
  | succ k ih => simpa [List.replicate_succ, charVal] using ih

theorem digitsRender_eq (w n : Nat) :
    digitsRender w n =
      List.replicate (w - ((Nat.digits 10 n).reverse.map digitChar).length) '0' ++
        (Nat.digits 10 n).reverse.map digitChar := by
  rw [digitsRender, natDigits_eq]

theorem valDigits_digitsRender {w n : Nat} : valDigits (digitsRender w n) = n := by
  rw [digitsRender_eq]
  unfold valDigits
  rw [List.foldl_append, foldl_val_replicate_zero]
  have hd : ∀ d ∈ (Nat.digits 10 n).reverse, d < 10 := fun d hd =>
    Nat.digits_lt_base (by norm_num) (List.mem_reverse.mp hd)
  rw [foldl_val_digitChar _ hd 0]
  simp [Nat.ofDigits_digits]

theorem digitsLen_le {w n : Nat} (h : n < 10 ^ w) : (Nat.digits 10 n).length ≤ w := by
  by_contra hlt
  push_neg at hlt
  rcases Nat.eq_zero_or_pos n with h0 | h0
  · subst h0; simp at hlt
  · have h1 : (10 : ℕ) ^ (Nat.digits 10 n).length ≤ 10 * n :=
      Nat.base_pow_length_digits_le 10 n (by norm_num) (by omega)
    have h2 : (10 : ℕ) ^ (w + 1) ≤ 10 ^ (Nat.digits 10 n).length :=
      Nat.pow_le_pow_right (by norm_num) hlt
    have h3 : (10 : ℕ) ^ (w + 1) = 10 * 10 ^ w := by ring
    omega

theorem length_digitsRender {w n : Nat} (h : n < 10 ^ w) :
    (digitsRender w n).length = w := by
  have hle := digitsLen_le h
  simp [digitsRender_eq]
  omega

theorem all_isDig_digitsRender (w n : Nat) :
    (digitsRender w n).all isDig = true := by
  rw [List.all_eq_true]
  intro c hc
  rw [digitsRender_eq] at hc
  rcases List.mem_append.mp hc with hc | hc
  · rw [List.eq_of_mem_replicate hc]; rfl
  · rcases List.mem_map.mp hc with ⟨d, hd, rfl⟩
    exact isDig_digitChar (Nat.digits_lt_base (by norm_num) (List.mem_reverse.mp hd))

theorem digitsRender_ne_nil {w n : Nat} (hw : 0 < w) (h : n < 10 ^ w) :
    digitsRender w n ≠ [] := by
  intro hE
  have hL := length_digitsRender h
  rw [hE] at hL
  simp at hL
  omega

theorem parseDigits_digitsRender {w n : Nat} (hw : 0 < w) (h : n < 10 ^ w) :
    parseDigits (digitsRender w n) = some n := by
  unfold parseDigits
  rw [if_pos ⟨digitsRender_ne_nil hw h, all_isDig_digitsRender w n⟩,
    valDigits_digitsRender]

/-! ## Data model (modelled from the spec, §3) -/

/-- Modelled from the spec: the fixed enumerated set of contest bands
(§3 Contact: band is "a member of a fixed enumerated set, e.g. 10GHz,
24GHz, …").  The processing engine's own source is not among the visible
files, so the set is taken from the spec's examples. -/
inductive Band where
  | b10GHz
  | b24GHz
  | b47GHz
  | b76GHz
  | b122GHz
  deriving DecidableEq, Repr

/-- Modelled from the spec: canonical label of each band, as emitted in
output and recognized by the synonym table (§4.3). -/
def bandLabel : Band → String
  | .b10GHz => "10GHz"
  | .b24GHz => "24GHz"
  | .b47GHz => "47GHz"
  | .b76GHz => "76GHz"
  | .b122GHz => "122GHz"

/-- Modelled from the spec: the Canonicalizer's fixed band synonym table
(§4.3: labels such as "10G", "10000", "10GHZ" all map to the canonical
10GHz member); the lookup key is the trimmed, uppercased raw label. -/
def bandFromLabel (s : String) : Option Band :=
  if s = "10G" ∨ s = "10000" ∨ s = "10GHZ" then some .b10GHz
  else if s = "24G" ∨ s = "24000" ∨ s = "24GHZ" then some .b24GHz
  else if s = "47G" ∨ s = "47000" ∨ s = "47GHZ" then some .b47GHz
  else if s = "76G" ∨ s = "76000" ∨ s = "76GHZ" then some .b76GHz
  else if s = "122G" ∨ s = "122000" ∨ s = "122GHZ" then some .b122GHz
  else none

/-- Modelled from the spec: a UTC timestamp (date plus time) of a Contact
(§3). -/
structure Timestamp where
  year : Nat
  month : Nat
  day : Nat
  hour : Nat
  minute : Nat
  deriving DecidableEq, Repr

/-- Chronological sort key of a timestamp (lexicographic in its fields,
injective on well-formed timestamps). -/
def tsKey (t : Timestamp) : Nat :=
  (((t.year * 13 + t.month) * 32 + t.day) * 24 + t.hour) * 60 + t.minute

/-- Modelled from the spec: the field bounds making a timestamp
well-formed (a parseable, unambiguous date and a 24-hour HHMM time,
§4.3). -/
def tsValid (t : Timestamp) : Bool :=
  decide (1 ≤ t.month ∧ t.month ≤ 12 ∧ 1 ≤ t.day ∧ t.day ≤ 31 ∧
    t.hour < 24 ∧ t.minute < 60 ∧ t.year < 10000)

/-- Modelled from the spec: the immutable canonical Contact (§3).  The
optional power and mode fields are omitted from the model: no claim
mentions them and they are not part of the required column vocabulary
(§6). -/
structure Contact where
  opCall : String
  workedCall : String
  ts : Timestamp
  band : Band
  ownGrid : String
  workedGrid : String
  deriving DecidableEq, Repr

/-- Modelled from the spec: a raw field record produced by a Parser (§3
RawRecord), carrying the required column vocabulary of §6 and a
source-row reference for error attribution. -/
structure RawRecord where
  row : Nat
  date : String
  time : String
  call : String
  band : String
  grid : String
  sourcegrid : String
  deriving DecidableEq, Repr

/-- Modelled from the spec: per-submission metadata (the submissionInfo of
§6) plus the configured contest window of §3's Contact invariant. -/
structure SubmissionInfo where
  callsign : String
  year : Nat
  opCategory : String
  stationCategory : String
  homeGrid : String
  power : String
  winStart : Timestamp
  winEnd : Timestamp
  deriving DecidableEq, Repr

/-- Modelled from the spec: the row-scoped error kinds of §7's taxonomy.
The unrecognized-band row error of §4.3 is recorded as a missing/invalid
band field, since §7's row-scoped taxonomy has no separate band kind. -/
inductive RowErrorKind where
  | missingRequiredField (field : String)
  | invalidGridSquare (grid : String)
  | invalidCallsign (call : String)
  | outOfContestWindow
  deriving DecidableEq, Repr

/-- Modelled from the spec: a recorded row-level error tagged with its
source row reference (§4.3). -/
structure RowError where
  row : Nat
  kind : RowErrorKind
  deriving DecidableEq, Repr

/-- Modelled from the spec: a ContestSubmission (§3) — metadata, the
chronologically ordered Contact sequence, and the row-level error log. -/
structure ContestSubmission where
  info : SubmissionInfo
  contacts : List Contact
  rowErrors : List RowError
  deriving DecidableEq, Repr

/-! ## Field normalization (modelled from the spec, §4.3) -/

/-- Whitespace test used by the modelled trim. -/
def isWs (c : Char) : Bool :=
  decide (c = ' ' ∨ c = '\t' ∨ c = '\r' ∨ c = '\n')

/-- Modelled from the spec: trimming of raw fields (§4.3). -/
def strim (s : String) : String :=
  ⟨((s.data.dropWhile isWs).reverse.dropWhile isWs).reverse⟩

/-- Uppercasing of one character. -/
def upChar (c : Char) : Char :=
  if 'a' ≤ c ∧ c ≤ 'z' then Char.ofNat (c.toNat - 32) else c

/-- Modelled from the spec: uppercase normalization of raw fields (§4.3). -/
def supper (s : String) : String := ⟨s.data.map upChar⟩

/-- Trim then uppercase: the §4.3 normalization applied to the callsign,
grid and band fields. -/
def normUp (s : String) : String := supper (strim s)

theorem bandFromLabel_bandLabel (b : Band) :
    bandFromLabel (normUp (bandLabel b)) = some b := by
  cases b <;> rfl

/-! ## Date and time fields (modelled from the spec, §6 column vocabulary) -/

/-- Modelled from the spec: the YYYY-MM-DD date field as written by the
CabrilloWriter (§4.6, §6). -/
def renderDate (t : Timestamp) : String :=
  ⟨digitsRender 4 t.year ++ '-' :: (digitsRender 2 t.month ++ '-' :: digitsRender 2 t.day)⟩

/-- Modelled from the spec: the HHMM UTC time field as written by the
CabrilloWriter (§4.6, §6). -/
def renderTime (t : Timestamp) : String :=
  ⟨digitsRender 2 t.hour ++ digitsRender 2 t.minute⟩

/-- Modelled from the spec: Canonicalizer parsing of a YYYY-MM-DD date
field, rejecting unparsable shapes (§4.3). -/
def parseDate (s : String) : Option (Nat × Nat × Nat) :=
  match parseDigits (s.data.take 4), s.data.drop 4 with
  | some y, '-' :: r1 =>
    match parseDigits (r1.take 2), r1.drop 2 with
    | some m, '-' :: r2 =>
      match parseDigits r2, r2.length with
      | some d, 2 => some (y, m, d)
      | _, _ => none
    | _, _ => none
  | _, _ => none

/-- Modelled from the spec: Canonicalizer parsing of an HHMM UTC time
field, rejecting unparsable shapes (§4.3). -/
def parseTime (s : String) : Option (Nat × Nat) :=
  match parseDigits (s.data.take 2), parseDigits (s.data.drop 2), s.data.length with
  | some h, some m, 4 => some (h, m)
  | _, _, _ => none

theorem parseDate_renderDate {t : Timestamp} (h : tsValid t = true) :
    parseDate (renderDate t) = some (t.year, t.month, t.day) := by
  simp only [tsValid, decide_eq_true_eq] at h
  have hy : t.year < 10 ^ 4 := by omega
  have hm : t.month < 10 ^ 2 := by omega
  have hd : t.day < 10 ^ 2 := by omega
  have h4 := length_digitsRender hy
  have h2m := length_digitsRender hm
  have h2d := length_digitsRender hd
  show parseDate ⟨_⟩ = _
  unfold parseDate
  rw [show (String.mk (digitsRender 4 t.year ++ '-' ::
        (digitsRender 2 t.month ++ '-' :: digitsRender 2 t.day))).data
      = digitsRender 4 t.year ++ '-' ::
        (digitsRender 2 t.month ++ '-' :: digitsRender 2 t.day) from rfl,
    List.take_left' h4, List.drop_left' h4,
    parseDigits_digitsRender (by norm_num) hy]
  simp only
  rw [List.take_left' h2m, List.drop_left' h2m,
    parseDigits_digitsRender (by norm_num) hm]
  simp only
  rw [parseDigits_digitsRender (by norm_num) hd, h2d]

theorem parseTime_renderTime {t : Timestamp} (h : tsValid t = true) :
    parseTime (renderTime t) = some (t.hour, t.minute) := by
  simp only [tsValid, decide_eq_true_eq] at h
  have hh : t.hour < 10 ^ 2 := by omega
  have hm : t.minute < 10 ^ 2 := by omega
  have h2h := length_digitsRender hh
  have h2m := length_digitsRender hm
  unfold parseTime renderTime
  rw [show (String.mk (digitsRender 2 t.hour ++ digitsRender 2 t.minute)).data
      = digitsRender 2 t.hour ++ digitsRender 2 t.minute from rfl,
    List.take_left' h2h, List.drop_left' h2h,
    parseDigits_digitsRender (by norm_num) hh,
    parseDigits_digitsRender (by norm_num) hm,
    List.length_append, h2h, h2m]

/-! ## GeoMath: Maidenhead grid decoding (modelled from the spec, §4.1) -/

/-- Modelled from the spec: GeoMath decode (§4.1) — maps a valid 4- or
6-character Maidenhead locator (uppercased, as the Canonicalizer
normalizes grids before validation) to the rational (lat, lon) center of
its cell; `none` models failure with InvalidGridSquare.  Field letters
range over A–R, digits over 0–9, subsquare letters over A–X; the center
offsets are half a cell in each coordinate. -/
def decode (s : String) : Option (ℚ × ℚ) :=
  match s.data with
  | [a, b, c, d] =>
    if 'A' ≤ a ∧ a ≤ 'R' ∧ 'A' ≤ b ∧ b ≤ 'R' ∧ isDig c = true ∧ isDig d = true then
      some (-90 + 10 * ((b.toNat : ℚ) - 65) + (charVal d : ℚ) + 1/2,
            -180 + 20 * ((a.toNat : ℚ) - 65) + 2 * (charVal c : ℚ) + 1)
    else none
  | [a, b, c, d, e, f] =>
    if 'A' ≤ a ∧ a ≤ 'R' ∧ 'A' ≤ b ∧ b ≤ 'R' ∧ isDig c = true ∧ isDig d = true ∧
        'A' ≤ e ∧ e ≤ 'X' ∧ 'A' ≤ f ∧ f ≤ 'X' then
      some (-90 + 10 * ((b.toNat : ℚ) - 65) + (charVal d : ℚ)
              + ((f.toNat : ℚ) - 65) * (1/24) + 1/48,
            -180 + 20 * ((a.toNat : ℚ) - 65) + 2 * (charVal c : ℚ)
              + ((e.toNat : ℚ) - 65) * (1/12) + 1/24)
    else none
  | _ => none

/-- Boolean grid validity, as used by the Canonicalizer's checks
(§4.3 InvalidGridSquare): a grid is valid exactly when GeoMath decodes
it. -/
def validGrid (s : String) : Bool := (decode s).isSome

/-- The spec's own description of a well-formed locator (§3 GridSquare:
"4 or 6 characters, alternating letter-pairs and digit-pairs"; §4.1:
malformed means wrong length or out-of-range letter/digit values).
Stated independently of the decoder, to be compared with it. -/
def GridSpecValid (s : String) : Prop :=
  (∃ a b c d, [a, b, c, d] = s.data ∧
    'A' ≤ a ∧ a ≤ 'R' ∧ 'A' ≤ b ∧ b ≤ 'R' ∧ isDig c = true ∧ isDig d = true) ∨
  (∃ a b c d e f, [a, b, c, d, e, f] = s.data ∧
    'A' ≤ a ∧ a ≤ 'R' ∧ 'A' ≤ b ∧ b ≤ 'R' ∧ isDig c = true ∧ isDig d = true ∧
    'A' ≤ e ∧ e ≤ 'X' ∧ 'A' ≤ f ∧ f ≤ 'X')

/-! ## Canonicalizer (modelled from the spec, §4.3) -/

/-- Modelled from the spec: the contest-window check on a Contact's
timestamp (§3 invariant, §4.3 OutOfContestWindow). -/
def inWindow (info : SubmissionInfo) (t : Timestamp) : Bool :=
  decide (tsKey info.winStart ≤ tsKey t ∧ tsKey t ≤ tsKey info.winEnd)

/-- Modelled from the spec: the Canonicalizer's per-record step (§4.3):
trim and uppercase the callsign and grid fields, normalize the band label
through the synonym table, parse date and time, fall back to the
submission's home grid when the source-grid column is empty, validate the
Contact invariants of §3, and return either the Contact or one row-scoped
error tagged with the source row. -/
def canonicalizeRecord (info : SubmissionInfo) (r : RawRecord) :
    Except RowError Contact :=
  let call := normUp r.call
  let wgrid := normUp r.grid
  let sgrid := normUp r.sourcegrid
  match bandFromLabel (normUp r.band) with
  | none => .error ⟨r.row, .missingRequiredField "band"⟩
  | some band =>
    match parseDate r.date, parseTime r.time with
    | some (y, m, d), some (hh, mm) =>
      let ts : Timestamp := ⟨y, m, d, hh, mm⟩
      if tsValid ts = false then
        .error ⟨r.row, .missingRequiredField "date"⟩
      else if call = "" then
        .error ⟨r.row, .invalidCallsign r.call⟩
      else
        let ownGrid := if sgrid = "" then info.homeGrid else sgrid
        if validGrid wgrid = false then
          .error ⟨r.row, .invalidGridSquare wgrid⟩
        else if validGrid ownGrid = false then
          .error ⟨r.row, .invalidGridSquare ownGrid⟩
        else if inWindow info ts = false then
          .error ⟨r.row, .outOfContestWindow⟩
        else
          .ok ⟨info.callsign, call, ts, band, ownGrid, wgrid⟩
    | _, _ => .error ⟨r.row, .missingRequiredField "date"⟩

/-- Modelled from the spec: the Canonicalizer over a whole file's record
sequence, accumulating Contacts and row-level errors without aborting on
a bad row (§4.3 partial-failure semantics). -/
def canonicalizeAll (info : SubmissionInfo) :
    List RawRecord → List Contact × List RowError
  | [] => ([], [])
  | r :: rs =>
    let rest := canonicalizeAll info rs
    match canonicalizeRecord info r with
    | .ok c => (c :: rest.1, rest.2)
    | .error e => (rest.1, e :: rest.2)

/-- Modelled from the spec: the per-file fatal error kinds (§7). -/
inductive FileError where
  | emptyLogAfterValidation
  | unrecognizedFormat
  deriving DecidableEq, Repr

/-- Modelled from the spec: processing one file's records — canonicalize
every row, then fail with EmptyLogAfterValidation only when zero valid
Contacts survived (§4.3). -/
def processFile (info : SubmissionInfo) (rs : List RawRecord) :
    Except FileError (List Contact × List RowError) :=
  match canonicalizeAll info rs with
  | ([], _) => .error .emptyLogAfterValidation
  | (c :: cs, es) => .ok (c :: cs, es)

/-- The Contact component of a per-record canonicalization outcome. -/
def okPart (x : Except RowError Contact) : Option Contact :=
  match x with
  | .ok c => some c
  | .error _ => none

/-- The error component of a per-record canonicalization outcome. -/
def errPart (x : Except RowError Contact) : Option RowError :=
  match x with
  | .ok _ => none
  | .error e => some e

/-! ## CabrilloWriter (modelled from the spec, §4.6)

Output text is modelled at the granularity of lines and whitespace-separated
fields: a text is a list of lines, each line a list of field strings.
-/

/-- Modelled from the spec: chronological ordering of Contacts by
timestamp (§4.6). -/
def contactLE (c d : Contact) : Prop := tsKey c.ts ≤ tsKey d.ts

instance : DecidableRel contactLE := fun _ _ => Nat.decLe _ _

instance : IsTotal Contact contactLE := ⟨fun _ _ => Nat.le_total _ _⟩

instance : IsTrans Contact contactLE := ⟨fun _ _ _ h h' => Nat.le_trans h h'⟩

/-- One QSO line of Cabrillo output as its fields: tag, band, date, time,
sending callsign, sending grid, worked callsign, worked grid (§4.6,
§6). -/
def qsoLine (c : Contact) : List String :=
  ["QSO:", bandLabel c.band, renderDate c.ts, renderTime c.ts,
   c.opCall, c.ownGrid, c.workedCall, c.workedGrid]

/-- Modelled from the spec: the header block of Cabrillo output — the
submission's callsign, categories, grid and power (§4.6). -/
def headerLines (info : SubmissionInfo) : List (List String) :=
  [["START-OF-LOG:", "3.0"],
   ["CALLSIGN:", info.callsign],
   ["CATEGORY-OPERATOR:", info.opCategory],
   ["CATEGORY-STATION:", info.stationCategory],
   ["GRID-LOCATOR:", info.homeGrid],
   ["POWER:", info.power]]

/-- Modelled from the spec: writeCabrillo (§4.6) — serialize the header
metadata and the Contacts in ascending timestamp order.  A pure function
of the submission value: no ambient state enters the output. -/
def writeCabrillo (sub : ContestSubmission) : List (List String) :=
  headerLines sub.info ++
    (List.insertionSort contactLE sub.contacts).map qsoLine ++
    [["END-OF-LOG:"]]

/-! ## StandardLogParser (modelled from the spec, §4.2) -/

/-- Is a line a QSO line (its first field is the QSO tag)? -/
def isQsoLine (l : List String) : Bool :=
  decide (l.head? = some "QSO:")

/-- Modelled from the spec: positional field extraction from one QSO line
(§4.2: StandardLogParser "extracts fixed-position/tagged fields per
line").  A QSO line of unexpected arity yields empty raw fields, which
the Canonicalizer then rejects row-locally. -/
def recordOfQsoLine (row : Nat) (l : List String) : RawRecord :=
  match l with
  | [_, band, date, time, _own, sgrid, call, wgrid] =>
    ⟨row, date, time, call, band, wgrid, sgrid⟩
  | _ => ⟨row, "", "", "", "", "", ""⟩

/-- Modelled from the spec: StandardLogParser (§4.2) — recognizes the
structured submission-log header tag as the first significant line, then
extracts one RawRecord per QSO line; rows are numbered in order of
appearance. -/
def standardLogParse (text : List (List String)) :
    Except FileError (List RawRecord) :=
  match text with
  | l :: _ =>
    if l.head? = some "START-OF-LOG:" then
      .ok ((text.filter isQsoLine).enum.map fun p => recordOfQsoLine p.1 p.2)
    else .error .unrecognizedFormat
  | [] => .error .unrecognizedFormat

/-! ## Scorer (modelled from the spec, §4.5) -/

/-- Intra-log duplicate key: (worked callsign, band, date) (§4.4). -/
def dupKey (c : Contact) : String × Band × Nat × Nat × Nat :=
  (c.workedCall, c.band, c.ts.year, c.ts.month, c.ts.day)

/-- Modelled from the spec: intra-log duplicate flagging (§4.4) with an
accumulator of already-seen keys — a Contact is flagged when an earlier
Contact of the same submission shares its (worked callsign, band, date);
flagged Contacts are retained. -/
def markDupsFrom (seen : List (String × Band × Nat × Nat × Nat)) :
    List Contact → List (Contact × Bool)
  | [] => []
  | c :: cs =>
    (c, decide (dupKey c ∈ seen)) :: markDupsFrom (dupKey c :: seen) cs

/-- Duplicate flagging of a submission's contact list (§4.4). -/
def markDups (cs : List Contact) : List (Contact × Bool) :=
  markDupsFrom [] cs

/-- Modelled from the spec: the Scorer (§4.5).  The official
distance-to-points table and the band multipliers are not pinned by the
available material (§9 open questions), so they are parameters: `pts`
gives the distance-derived point value of a contact and `mult` the
band-specific multiplier.  Flagged intra-log duplicates are excluded from
the total; the per-contact breakdown retains every Contact with its
flag.  A submission with zero scoreable Contacts yields the sum over an
empty list, i.e. zero, not an error. -/
def scoreSubmission (pts : Contact → Nat) (mult : Band → Nat)
    (sub : ContestSubmission) : Nat × List (Contact × Bool) :=
  let breakdown := markDups sub.contacts
  ((((breakdown.filter fun p => !p.2).map fun p => pts p.1 * mult p.1.band).sum),
   breakdown)

/-- The scoreable part of a submission: its contacts not flagged as
intra-log duplicates (§4.5). -/
def scoreableContacts (sub : ContestSubmission) : List Contact :=
  ((markDups sub.contacts).filter fun p => !p.2).map Prod.fst

/-! ## Deduplicator / Merger (modelled from the spec, §4.4) -/

/-- Modelled from the spec: match status of a MergedQso (§3). -/
inductive MatchStatus where
  | matched
  | oneSided
  | timeConflict
  deriving DecidableEq, Repr

/-- Modelled from the spec: a MergedQso (§3) — a pairing of a Contact of
submission A with a Contact of submission B (each referenced by its index
in its log), or a one-sided report with the absent side `none`. -/
structure MergedQso where
  aIdx : Option Nat
  bIdx : Option Nat
  status : MatchStatus
  deriving DecidableEq, Repr

/-- Absolute difference of two timestamp keys. -/
def tsDiff (s t : Timestamp) : Nat :=
  max (tsKey s) (tsKey t) - min (tsKey s) (tsKey t)

/-- Modelled from the spec: the cross-log callsign/band matching criterion
(§4.4): A's operator callsign equals B's worked callsign and vice versa,
and the bands are equal. -/
def crossMatch (a b : Contact) : Bool :=
  decide (a.opCall = b.workedCall ∧ b.opCall = a.workedCall ∧ a.band = b.band)

/-- Pick the candidate (B index, timestamp difference) minimizing the
difference, keeping the earliest-listed candidate on ties; candidates are
supplied in ascending index order. -/
def pickBest : List (Nat × Nat) → Option (Nat × Nat)
  | [] => none
  | p :: ps =>
    match pickBest ps with
    | none => some p
    | some q => if q.2 < p.2 then some q else some p

/-- The candidate list for one of A's contacts: the (index, timestamp
difference) pairs of B's not-yet-consumed contacts matching on callsigns
and band, in ascending index order (§4.4). -/
def candList (bs : List Contact) (used : List Nat) (a : Contact) :
    List (Nat × Nat) :=
  (bs.enum.filter fun p => decide (p.1 ∉ used) && crossMatch a p.2).map
    fun p => (p.1, tsDiff a.ts p.2.ts)

/-- Modelled from the spec: the Deduplicator/Merger loop over A's contacts
(§4.4).  Each of A's contacts, in index order, is paired with the closest
unused B candidate matching on callsigns and band: within tolerance it is
a matched pair, beyond tolerance a time-conflict pair, and with no
candidate at all a one-sided report; a consumed B index is never reused.
Returns the reports and the consumed B indices. -/
def matchGo (tol : Nat) (bs : List Contact) :
    Nat → List Nat → List Contact → List MergedQso × List Nat
  | _, used, [] => ([], used)
  | i, used, a :: as =>
    match pickBest ((candList bs used a).filter fun p => decide (p.2 ≤ tol)) with
    | some (j, _) =>
      (⟨some i, some j, .matched⟩ :: (matchGo tol bs (i + 1) (j :: used) as).1,
        (matchGo tol bs (i + 1) (j :: used) as).2)
    | none =>
      match pickBest (candList bs used a) with
      | some (j, _) =>
        (⟨some i, some j, .timeConflict⟩ ::
            (matchGo tol bs (i + 1) (j :: used) as).1,
          (matchGo tol bs (i + 1) (j :: used) as).2)
      | none =>
        (⟨some i, none, .oneSided⟩ :: (matchGo tol bs (i + 1) used as).1,
          (matchGo tol bs (i + 1) used as).2)

/-- Modelled from the spec: compareSubmissions (§6, §4.4) — the MergedQso
reports for two submissions: matches, conflicts and one-sided reports for
A's contacts in order, followed by one-sided reports for B's unconsumed
contacts. -/
def compareSubmissions (tol : Nat) (subA subB : ContestSubmission) :
    List MergedQso :=
  let res := matchGo tol subB.contacts 0 [] subA.contacts
  res.1 ++
    (((List.range subB.contacts.length).filter fun j => decide (j ∉ res.2)).map
      fun j => ⟨none, some j, .oneSided⟩)

/-! ## Deployment stack (embedded from infrastructure/arrl-10ghz-web-stack.ts) -/

/-- A lifecycle rule of an S3 bucket as configured by the CDK stack: an
id, an expiration in days, and an optional key-prefix filter (the source
sets no filter, so the rule covers every object of the bucket). -/
structure LifecycleRule where
  id : String
  expirationDays : Nat
  keyPrefixFilter : Option String
  deriving DecidableEq, Repr

/-- A CORS rule as configured by the CDK stack. -/
structure CorsRule where
  allowedMethods : List String
  allowedOrigins : List String
  allowedHeaders : List String
  deriving DecidableEq, Repr

/-- S3 bucket properties, restricted to the fields the stack sets. -/
structure BucketProps where
  bucketName : String
  lifecycleRules : List LifecycleRule
  corsRules : List CorsRule
  websiteIndexDocument : Option String
  publicReadAccess : Bool
  deriving DecidableEq, Repr

/-- The stack's two buckets. -/
structure StackModel where
  websiteBucket : BucketProps
  filesBucket : BucketProps
  deriving DecidableEq, Repr

/-- Embedded from `infrastructure/arrl-10ghz-web-stack.ts` (WebsiteBucket,
lines 16–23; FilesBucket, lines 25–38): FilesBucket carries the single
lifecycle rule `DeleteAfter1Day` expiring objects after 1 day, with no
key-prefix filter.  Account and region of the physical bucket names are
deployment parameters. -/
def arrl10GhzWebStack (account region : String) : StackModel where
  websiteBucket :=
    { bucketName := "arrl-10ghz-web-" ++ account ++ "-" ++ region
      lifecycleRules := []
      corsRules := []
      websiteIndexDocument := some "index.html"
      publicReadAccess := true }
  filesBucket :=
    { bucketName := "arrl-10ghz-files-" ++ account ++ "-" ++ region
      lifecycleRules := [⟨"DeleteAfter1Day", 1, none⟩]
      corsRules := [⟨["GET", "POST", "PUT"], ["*"], ["*"]⟩]
      websiteIndexDocument := none
      publicReadAccess := false }

/-- S3 lifecycle expiration semantics: a rule applies to an object key
when its filter is absent or is a leading substring of the key. -/
def ruleAppliesTo (rule : LifecycleRule) (key : String) : Bool :=
  match rule.keyPrefixFilter with
  | none => true
  | some p => key.startsWith p

/-! ## Supporting lemmas -/

theorem canonicalizeAll_eq (info : SubmissionInfo) (rs : List RawRecord) :
    canonicalizeAll info rs =
      (rs.filterMap fun r => okPart (canonicalizeRecord info r),
       rs.filterMap fun r => errPart (canonicalizeRecord info r)) := by
  induction rs with
  | nil => rfl
  | cons r rs ih =>
    simp only [canonicalizeAll, ih, List.filterMap_cons]
    cases h : canonicalizeRecord info r <;> simp [okPart, errPart, h]

theorem canonicalizeRecord_error_row {info : SubmissionInfo} {r : RawRecord}
    {e : RowError} (h : canonicalizeRecord info r = .error e) : e.row = r.row := by
  simp only [canonicalizeRecord] at h
  repeat' split at h
  all_goals cases h <;> rfl

/-! ## Example data (used by witnesses) -/

/-- A sample submission metadata value with the 2024 contest window. -/
def exInfo : SubmissionInfo :=
  { callsign := "K2UA"
    year := 2024
    opCategory := "SINGLE-OP"
    stationCategory := "FIXED"
    homeGrid := "FN12FX"
    power := "10W"
    winStart := ⟨2024, 8, 17, 0, 0⟩
    winEnd := ⟨2024, 9, 22, 23, 59⟩ }

/-- Sample raw records: rows 1 and 3 are valid, row 2 carries the
malformed grid "ZZ99". -/
def exRecords : List RawRecord :=
  [⟨1, "2024-08-17", "1800", "W1AW", "10GHz", "FN31", ""⟩,
   ⟨2, "2024-08-17", "1805", "N2XX", "10GHz", "ZZ99", "FN12FX"⟩,
   ⟨3, "2024-08-17", "1810", "W2AA", "10GHz", "FN31PR", "FN12FX"⟩]

/-- A sample canonical contact. -/
def exContactA : Contact :=
  ⟨"K2UA", "W1AW", ⟨2024, 8, 17, 18, 0⟩, .b10GHz, "FN12FX", "FN31"⟩

/-- A second sample canonical contact, later and distinct. -/
def exContactB : Contact :=
  ⟨"K2UA", "W2AA", ⟨2024, 8, 17, 18, 10⟩, .b10GHz, "FN12FX", "FN31PR"⟩

/-- A contact duplicating exContactA's (worked callsign, band, date) at a
different time. -/
def exContactDup : Contact :=
  ⟨"K2UA", "W1AW", ⟨2024, 8, 17, 19, 0⟩, .b10GHz, "FN12FX", "FN31"⟩

/-- A sample submission with two valid, chronologically ordered contacts. -/
def exSub : ContestSubmission := ⟨exInfo, [exContactA, exContactB], []⟩

/-- A sample submission containing an intra-log duplicate pair. -/
def exSubDup : ContestSubmission := ⟨exInfo, [exContactA, exContactDup], []⟩

/-! ## Claims -/

/-- C1: for every input file, the Canonicalizer maps each RawRecord either
to a Contact or to a recorded row-level error, and a single malformed row
never aborts the file: the Contact list is exactly the per-row successes,
the error list exactly the per-row failures (one row-scoped error per bad
row), and every collected error references the row of the record that
produced it. -/
theorem claim1_canonicalizer_partial_failure (info : SubmissionInfo)
    (rs : List RawRecord) :
    (canonicalizeAll info rs).1
        = (rs.filterMap fun r => okPart (canonicalizeRecord info r)) ∧
    (canonicalizeAll info rs).2
        = (rs.filterMap fun r => errPart (canonicalizeRecord info r)) ∧
    ∀ e ∈ (canonicalizeAll info rs).2, ∃ r ∈ rs,
      canonicalizeRecord info r = .error e ∧ e.row = r.row := by
  refine ⟨by rw [canonicalizeAll_eq], by rw [canonicalizeAll_eq], ?_⟩
  intro e he
  rw [canonicalizeAll_eq] at he
  simp only [List.mem_filterMap] at he
  obtain ⟨r, hr, hre⟩ := he
  cases h : canonicalizeRecord info r with
  | ok c => rw [h] at hre; cases hre
  | error e' =>
    rw [h] at hre
    cases hre
    exact ⟨r, hr, h, canonicalizeRecord_error_row h⟩

/-- Witness for C1, on the spec's own example: a file whose second row has
the invalid grid "ZZ99" collects exactly the row-scoped InvalidGridSquare
error for row 2, produced by that record. -/
theorem claim1_witness :
    ∃ r ∈ exRecords,
      canonicalizeRecord exInfo r
          = .error ⟨2, .invalidGridSquare "ZZ99"⟩ ∧
      (⟨2, .invalidGridSquare "ZZ99"⟩ : RowError).row = r.row :=
  (claim1_canonicalizer_partial_failure exInfo exRecords).2.2 _ (by decide)

/-- C3: writeCabrillo is deterministic — it is a pure function of the
submission value (the model threads no ambient state), so any two
invocations on the same submission produce identical output text. -/
theorem claim3_writeCabrillo_deterministic (s₁ s₂ : ContestSubmission)
    (h : s₁ = s₂) : writeCabrillo s₁ = writeCabrillo s₂ := by
  rw [h]

/-- Witness for C3 at a concrete submission. -/
theorem claim3_witness : writeCabrillo exSub = writeCabrillo exSub :=
  claim3_writeCabrillo_deterministic exSub exSub rfl

/-- C9: a submission with zero scoreable Contacts gets total score 0 from
scoreSubmission (a value, not an error), for any scoring table and band
multipliers. -/
theorem claim9_zero_scoreable_zero_total (pts : Contact → Nat)
    (mult : Band → Nat) (sub : ContestSubmission)
    (h : scoreableContacts sub = []) :
    (scoreSubmission pts mult sub).1 = 0 := by
  unfold scoreableContacts at h
  rw [List.map_eq_nil_iff] at h
  simp [scoreSubmission, h]

/-- Witness for C9: the empty-contacts submission scores 0. -/
theorem claim9_witness :
    (scoreSubmission (fun _ => 100) (fun _ => 1) ⟨exInfo, [], []⟩).1 = 0 :=
  claim9_zero_scoreable_zero_total _ _ _ rfl

/-- C10: in the deployed stack the temporary-files bucket is configured so
that every stored object is covered by the lifecycle rule DeleteAfter1Day
expiring it 1 day after creation: the rule is present, has a 1-day
expiration, and (having no key-prefix filter) applies to every object
key. -/
theorem claim10_filesBucket_lifecycle (account region key : String) :
    ∃ rule ∈ (arrl10GhzWebStack account region).filesBucket.lifecycleRules,
      rule.id = "DeleteAfter1Day" ∧ rule.expirationDays = 1 ∧
      ruleAppliesTo rule key = true := by
  refine ⟨⟨"DeleteAfter1Day", 1, none⟩, ?_, rfl, rfl, rfl⟩
  simp [arrl10GhzWebStack]

theorem markDupsFrom_map_fst (seen : List (String × Band × Nat × Nat × Nat))
    (cs : List Contact) : (markDupsFrom seen cs).map Prod.fst = cs := by
  induction cs generalizing seen with
  | nil => rfl
  | cons c cs ih => simp [markDupsFrom, ih]

theorem markDupsFrom_countP_le (k : String × Band × Nat × Nat × Nat)
    (seen : List (String × Band × Nat × Nat × Nat)) (cs : List Contact) :
    List.countP (fun p => !p.2 && decide (dupKey p.1 = k))
        (markDupsFrom seen cs) ≤ if k ∈ seen then 0 else 1 := by
  induction cs generalizing seen with
  | nil => simp [markDupsFrom]
  | cons c cs ih =>
    rw [markDupsFrom, List.countP_cons]
    by_cases hk : dupKey c = k
    · subst hk
      have h2 := ih (dupKey c :: seen)
      rw [if_pos (List.mem_cons_self _ _)] at h2
      by_cases hs : dupKey c ∈ seen
      · rw [if_pos hs]
        simpa [hs] using h2
      · rw [if_neg hs]
        have hh : (!decide (dupKey c ∈ seen) && decide (dupKey c = dupKey c))
            = true := by simp [hs]
        rw [hh, if_pos rfl]
        omega
    · have h2 := ih (dupKey c :: seen)
      simp only [decide_eq_false hk, Bool.and_false, if_false, Nat.add_zero]
      by_cases hs : k ∈ seen
      · rw [if_pos hs]
        rw [if_pos (List.mem_cons_of_mem _ hs)] at h2
        exact h2
      · rw [if_neg hs]
        rw [if_neg (by
          intro hmem
          rcases List.mem_cons.mp hmem with h | h
          · exact hk h.symm
          · exact hs h)] at h2
        exact h2

/-- C2: in any submission with two Contacts sharing (worked callsign,
band, date), the scoring breakdown retains every Contact in order (so all
are counted in contact counts), at most one entry carrying that duplicate
key is left unflagged, and the total is the sum over unflagged entries
only — so at most one of the duplicates contributes to the score
total. -/
theorem claim2_intralog_dup (pts : Contact → Nat) (mult : Band → Nat)
    (sub : ContestSubmission) (i j : Nat) (hij : i < j)
    (hj : j < sub.contacts.length)
    (_hkey : dupKey (sub.contacts.get ⟨i, Nat.lt_trans hij hj⟩)
        = dupKey (sub.contacts.get ⟨j, hj⟩)) :
    ((scoreSubmission pts mult sub).2.map Prod.fst = sub.contacts) ∧
    List.countP
        (fun p => !p.2 && decide (dupKey p.1 = dupKey (sub.contacts.get ⟨j, hj⟩)))
        (scoreSubmission pts mult sub).2 ≤ 1 ∧
    (scoreSubmission pts mult sub).1 =
      (((scoreSubmission pts mult sub).2.filter fun p => !p.2).map
        fun p => pts p.1 * mult p.1.band).sum := by
  have h2 := markDupsFrom_countP_le (dupKey (sub.contacts.get ⟨j, hj⟩)) []
    sub.contacts
  rw [if_neg (List.not_mem_nil _)] at h2
  exact ⟨markDupsFrom_map_fst [] sub.contacts, h2, rfl⟩

/-- Witness for C2 at a concrete duplicate pair. -/
theorem claim2_witness :
    List.countP
        (fun p => !p.2 && decide (dupKey p.1
            = dupKey (exSubDup.contacts.get ⟨1, by decide⟩)))
        (scoreSubmission (fun _ => 100) (fun _ => 1) exSubDup).2 ≤ 1 :=
  (claim2_intralog_dup (fun _ => 100) (fun _ => 1) exSubDup 0 1 (by decide)
    (by decide) (by decide)).2.1

/-- C7: GeoMath decode succeeds exactly on the spec's well-formed 4- or
6-character locators and fails on every malformed string (wrong length or
out-of-range letter/digit values); in particular a 6-character string with
an invalid tail is rejected, never truncated to its valid 4-character
prefix. -/
theorem claim7_decode_valid_iff (s : String) :
    (decode s).isSome = true ↔ GridSpecValid s := by
  rcases s with ⟨cs⟩
  rcases cs with _ | ⟨a, _ | ⟨b, _ | ⟨c, _ | ⟨d, _ | ⟨e, _ | ⟨f, _ | ⟨g, rest⟩⟩⟩⟩⟩⟩⟩ <;>
    simp [decode, GridSpecValid]
  · constructor
    · intro h
      exact ⟨a, b, c, d, ⟨rfl, rfl, rfl, rfl⟩, h⟩
    · rintro ⟨a', b', c', d', ⟨rfl, rfl, rfl, rfl⟩, h⟩
      exact h
  · constructor
    · intro h
      exact ⟨a, b, c, d, e, f, ⟨rfl, rfl, rfl, rfl, rfl, rfl⟩, h⟩
    · rintro ⟨a', b', c', d', e', f', ⟨rfl, rfl, rfl, rfl, rfl, rfl⟩, h⟩
      exact h

theorem pickBest_mem : ∀ {l : List (Nat × Nat)} {p : Nat × Nat},
    pickBest l = some p → p ∈ l
  | [], _, h => by cases h
  | q :: l, p, h => by
    rw [pickBest] at h
    cases hb : pickBest l with
    | none =>
      rw [hb] at h
      cases h
      exact List.mem_cons_self _ _
    | some r =>
      rw [hb] at h
      dsimp only at h
      split_ifs at h
      · cases h
        exact List.mem_cons_of_mem _ (pickBest_mem hb)
      · cases h
        exact List.mem_cons_self _ _

theorem candList_mem {bs : List Contact} {used : List Nat} {a : Contact}
    {j d : Nat} (h : (j, d) ∈ candList bs used a) :
    j ∉ used ∧ j < bs.length := by
  unfold candList at h
  rcases List.mem_map.mp h with ⟨p, hp, heq⟩
  rcases List.mem_filter.mp hp with ⟨hmem, hpred⟩
  rcases p with ⟨i, x⟩
  have hi : i = j := congrArg Prod.fst heq
  subst hi
  rw [Bool.and_eq_true] at hpred
  rcases hpred with ⟨hused, -⟩
  refine ⟨of_decide_eq_true hused, ?_⟩
  have := List.mk_mem_enum_iff_getElem?.mp hmem
  exact (List.getElem?_eq_some.mp this).1

theorem matchGo_aIdx (tol : Nat) (bs : List Contact) :
    ∀ (as : List Contact) (i : Nat) (used : List Nat),
      (matchGo tol bs i used as).1.filterMap MergedQso.aIdx
        = List.range' i as.length := by
  intro as
  induction as with
  | nil => intro i used; rfl
  | cons a as ih =>
    intro i used
    rw [matchGo]
    cases pickBest ((candList bs used a).filter fun p => decide (p.2 ≤ tol)) with
    | some jd =>
      obtain ⟨j, d⟩ := jd
      simp [List.filterMap_cons, ih, List.range']
    | none =>
      cases pickBest (candList bs used a) with
      | some jd =>
        obtain ⟨j, d⟩ := jd
        simp [List.filterMap_cons, ih, List.range']
      | none =>
        simp [List.filterMap_cons, ih, List.range']

theorem matchGo_used_perm (tol : Nat) (bs : List Contact) :
    ∀ (as : List Contact) (i : Nat) (used : List Nat),
      List.Perm (matchGo tol bs i used as).2
        ((matchGo tol bs i used as).1.filterMap MergedQso.bIdx ++ used) := by
  intro as
  induction as with
  | nil => intro i used; simp [matchGo]
  | cons a as ih =>
    intro i used
    rw [matchGo]
    cases pickBest ((candList bs used a).filter fun p => decide (p.2 ≤ tol)) with
    | some jd =>
      obtain ⟨j, d⟩ := jd
      simp only [List.filterMap_cons]
      exact (ih (i + 1) (j :: used)).trans List.perm_middle
    | none =>
      cases pickBest (candList bs used a) with
      | some jd =>
        obtain ⟨j, d⟩ := jd
        simp only [List.filterMap_cons]
        exact (ih (i + 1) (j :: used)).trans List.perm_middle
      | none =>
        simp only [List.filterMap_cons]
        exact ih (i + 1) used

theorem matchGo_used_nodup (tol : Nat) (bs : List Contact) :
    ∀ (as : List Contact) (i : Nat) (used : List Nat), used.Nodup →
      (matchGo tol bs i used as).2.Nodup := by
  intro as
  induction as with
  | nil => intro i used h; exact h
  | cons a as ih =>
    intro i used h
    rw [matchGo]
    cases hp : pickBest ((candList bs used a).filter fun p => decide (p.2 ≤ tol)) with
    | some jd =>
      obtain ⟨j, d⟩ := jd
      have hj : j ∉ used :=
        (candList_mem (List.mem_of_mem_filter (pickBest_mem hp))).1
      exact ih (i + 1) (j :: used) (List.nodup_cons.mpr ⟨hj, h⟩)
    | none =>
      cases hq : pickBest (candList bs used a) with
      | some jd =>
        obtain ⟨j, d⟩ := jd
        have hj : j ∉ used := (candList_mem (pickBest_mem hq)).1
        exact ih (i + 1) (j :: used) (List.nodup_cons.mpr ⟨hj, h⟩)
      | none => exact ih (i + 1) used h

theorem filterMap_const_none {α β : Type} (l : List α) :
    List.filterMap (fun _ => (none : Option β)) l = [] := by
  induction l with
  | nil => rfl
  | cons a l ih => simp [List.filterMap_cons, ih]

theorem filterMap_some_fn {α : Type} (l : List α) :
    List.filterMap (fun a => some a) l = l := by
  induction l with
  | nil => rfl
  | cons a l ih => simp [List.filterMap_cons, ih]

/-- C8: in the output of compareSubmissions, every Contact participates in
at most one MergedQso and none is dropped: the A-side indices of the
reports are exactly 0..|A|-1 in order (each A contact in exactly one
report), the B-side indices are pairwise distinct (each B contact in at
most one report), and every B index appears in some report — unmatched
contacts appear as one-sided reports rather than being dropped.  The
first-fit selection by closest timestamp difference with earliest-index
tie-breaking is the definition of pickBest/matchGo. -/
theorem claim8_compare_participation (tol : Nat)
    (subA subB : ContestSubmission) :
    ((compareSubmissions tol subA subB).filterMap MergedQso.aIdx
        = List.range subA.contacts.length) ∧
    ((compareSubmissions tol subA subB).filterMap MergedQso.bIdx).Nodup ∧
    (∀ j, j < subB.contacts.length →
      j ∈ (compareSubmissions tol subA subB).filterMap MergedQso.bIdx) := by
  have hperm := matchGo_used_perm tol subB.contacts subA.contacts 0 []
  rw [List.append_nil] at hperm
  have hnodup :=
    matchGo_used_nodup tol subB.contacts subA.contacts 0 [] List.nodup_nil
  unfold compareSubmissions
  simp only [List.filterMap_append, List.filterMap_map]
  refine ⟨?_, ?_, ?_⟩
  · rw [matchGo_aIdx]
    rw [show ((fun p => MergedQso.aIdx p) ∘ fun j =>
        (⟨none, some j, .oneSided⟩ : MergedQso)) = fun _ => (none : Option Nat)
      from rfl]
    rw [filterMap_const_none, List.append_nil, List.range_eq_range']
  · rw [show ((fun p => MergedQso.bIdx p) ∘ fun j =>
        (⟨none, some j, .oneSided⟩ : MergedQso)) = fun j => some j from rfl]
    rw [filterMap_some_fn]
    refine List.Nodup.append (hperm.nodup hnodup) ?_ ?_
    · exact List.Nodup.filter _ (List.nodup_range _)
    · intro x hx hx'
      have hxin : x ∈ (matchGo tol subB.contacts 0 [] subA.contacts).2 :=
        hperm.mem_iff.mpr hx
      have := (List.mem_filter.mp hx').2
      exact absurd hxin (of_decide_eq_true this)
  · intro j hj
    rw [show ((fun p => MergedQso.bIdx p) ∘ fun j =>
        (⟨none, some j, .oneSided⟩ : MergedQso)) = fun j => some j from rfl]
    rw [filterMap_some_fn, List.mem_append]
    by_cases hmem : j ∈ (matchGo tol subB.contacts 0 [] subA.contacts).2
    · exact Or.inl (hperm.mem_iff.mp hmem)
    · exact Or.inr (List.mem_filter.mpr
        ⟨List.mem_range.mpr hj, decide_eq_true hmem⟩)

/-- The timestamp key recovered from one output line: defined only on QSO
lines, by re-parsing their date and time fields. -/
def qsoKeyOfLine (l : List String) : Option Nat :=
  match l with
  | [tag, _, dtok, ttok, _, _, _, _] =>
    if tag = "QSO:" then
      match parseDate dtok, parseTime ttok with
      | some (y, m, d), some (hh, mm) => some (tsKey ⟨y, m, d, hh, mm⟩)
      | _, _ => none
    else none
  | _ => none

/-- The timestamp keys of the QSO lines of an output text, in emission
order. -/
def qsoTsKeys (text : List (List String)) : List Nat :=
  text.filterMap qsoKeyOfLine

theorem filterMap_qsoKey_headerLines (info : SubmissionInfo) :
    (headerLines info).filterMap qsoKeyOfLine = [] := rfl

theorem qsoKeyOfLine_qsoLine {c : Contact} (h : tsValid c.ts = true) :
    qsoKeyOfLine (qsoLine c) = some (tsKey c.ts) := by
  unfold qsoKeyOfLine qsoLine
  dsimp only
  rw [if_pos rfl, parseDate_renderDate h, parseTime_renderTime h]

theorem filterMap_qsoKey_qsoLines (cs : List Contact)
    (h : ∀ c ∈ cs, tsValid c.ts = true) :
    (cs.map qsoLine).filterMap qsoKeyOfLine = cs.map fun c => tsKey c.ts := by
  induction cs with
  | nil => rfl
  | cons c cs ih =>
    rw [List.map_cons, List.filterMap_cons,
      qsoKeyOfLine_qsoLine (h c (List.mem_cons_self _ _)),
      ih (fun x hx => h x (List.mem_cons_of_mem _ hx)), List.map_cons]

theorem qsoTsKeys_writeCabrillo (sub : ContestSubmission)
    (h : ∀ c ∈ sub.contacts, tsValid c.ts = true) :
    qsoTsKeys (writeCabrillo sub)
      = (List.insertionSort contactLE sub.contacts).map fun c => tsKey c.ts := by
  have hsorted : ∀ c ∈ List.insertionSort contactLE sub.contacts,
      tsValid c.ts = true :=
    fun c hc => h c ((List.mem_insertionSort _).mp hc)
  unfold qsoTsKeys writeCabrillo
  rw [List.filterMap_append, List.filterMap_append,
    filterMap_qsoKey_headerLines, filterMap_qsoKey_qsoLines _ hsorted]
  simp [show qsoKeyOfLine ["END-OF-LOG:"] = none from rfl]

/-- A contact sharing exContactA's exact timestamp. -/
def exContactSameTs : Contact :=
  ⟨"K2UA", "W2AA", ⟨2024, 8, 17, 18, 0⟩, .b10GHz, "FN12FX", "FN31PR"⟩

/-- A submission with two distinct contacts at the same timestamp. -/
def exSubEqualTs : ContestSubmission :=
  ⟨exInfo, [exContactA, exContactSameTs], []⟩

/-- C5 counterexample: writeCabrillo cannot emit Contacts in strictly
ascending timestamp order for every submission — a submission with two
retained Contacts at the same timestamp yields two QSO lines with equal
timestamps, which no strictly ascending order admits. -/
theorem claim5_counterexample :
    ¬ List.Pairwise (fun a b => a < b)
      (qsoTsKeys (writeCabrillo exSubEqualTs)) := by
  decide

/-- C5 as amended: for every submission of well-formed timestamps,
writeCabrillo emits the Contacts in ascending (non-decreasing) timestamp
order — ties between equal timestamps allowed — and emits exactly the
submission's Contacts regardless of their input order (the emitted
timestamp keys are a permutation of the contacts' keys). -/
theorem claim5_amended_ascending (sub : ContestSubmission)
    (h : ∀ c ∈ sub.contacts, tsValid c.ts = true) :
    List.Pairwise (fun a b => a ≤ b) (qsoTsKeys (writeCabrillo sub)) ∧
    List.Perm (qsoTsKeys (writeCabrillo sub))
      (sub.contacts.map fun c => tsKey c.ts) := by
  rw [qsoTsKeys_writeCabrillo sub h]
  constructor
  · exact List.Pairwise.map _ (fun a b hab => hab)
      (List.sorted_insertionSort contactLE sub.contacts)
  · exact (List.perm_insertionSort contactLE sub.contacts).map _

/-- Witness for the amended C5 at a concrete submission. -/
theorem claim5_witness :
    List.Pairwise (fun a b => a ≤ b) (qsoTsKeys (writeCabrillo exSub)) ∧
    List.Perm (qsoTsKeys (writeCabrillo exSub))
      (exSub.contacts.map fun c => tsKey c.ts) :=
  claim5_amended_ascending exSub (by decide)

/-- The §3 Contact invariants relative to its submission, as boolean
checks: the operator callsign is the submission's callsign; callsigns and
grids are trim/uppercase fixed points and the worked callsign nonempty;
both grid squares valid; the timestamp well-formed and inside the
configured contest window. -/
def contactValid (info : SubmissionInfo) (c : Contact) : Bool :=
  decide (c.opCall = info.callsign) &&
    decide (normUp c.workedCall = c.workedCall) && decide (c.workedCall ≠ "") &&
    decide (normUp c.ownGrid = c.ownGrid) &&
    decide (normUp c.workedGrid = c.workedGrid) &&
    validGrid c.ownGrid && validGrid c.workedGrid &&
    tsValid c.ts && inWindow info c.ts

theorem validGrid_ne_empty {s : String} (h : validGrid s = true) : s ≠ "" := by
  intro he
  subst he
  exact absurd h (by decide)

theorem canonicalizeRecord_qso (info : SubmissionInfo) (row : Nat)
    (c : Contact) (h : contactValid info c = true) :
    canonicalizeRecord info (recordOfQsoLine row (qsoLine c)) = .ok c := by
  simp only [contactValid, Bool.and_eq_true, decide_eq_true_eq] at h
  obtain ⟨⟨⟨⟨⟨⟨⟨⟨hop, hwc⟩, hwcne⟩, hog⟩, hwg⟩, hogv⟩, hwgv⟩, hts⟩, hwin⟩ := h
  show canonicalizeRecord info
    ⟨row, renderDate c.ts, renderTime c.ts, c.workedCall, bandLabel c.band,
      c.workedGrid, c.ownGrid⟩ = .ok c
  unfold canonicalizeRecord
  dsimp only
  rw [bandFromLabel_bandLabel, parseDate_renderDate hts, parseTime_renderTime hts]
  dsimp only
  rw [show (⟨c.ts.year, c.ts.month, c.ts.day, c.ts.hour, c.ts.minute⟩ : Timestamp)
      = c.ts from rfl, hts, hwc, hog, hwg, hwgv]
  rw [if_neg (by simp), if_neg hwcne, if_neg (by simp),
    if_neg (validGrid_ne_empty hogv), hogv, if_neg (by simp), hwin,
    if_neg (by simp), ← hop]

theorem canonicalizeAll_enumFrom (info : SubmissionInfo) (k : Nat)
    (cs : List Contact) (h : ∀ c ∈ cs, contactValid info c = true) :
    canonicalizeAll info
        ((List.enumFrom k (cs.map qsoLine)).map fun p => recordOfQsoLine p.1 p.2)
      = (cs, []) := by
  induction cs generalizing k with
  | nil => rfl
  | cons c cs ih =>
    rw [List.map_cons, List.enumFrom, List.map_cons, canonicalizeAll]
    dsimp only
    rw [canonicalizeRecord_qso info k c (h c (List.mem_cons_self _ _)),
      ih (k + 1) fun x hx => h x (List.mem_cons_of_mem _ hx)]

theorem filter_isQso_writeCabrillo (sub : ContestSubmission) :
    (writeCabrillo sub).filter isQsoLine
      = (List.insertionSort contactLE sub.contacts).map qsoLine := by
  unfold writeCabrillo
  rw [List.filter_append, List.filter_append]
  have h2 : ((List.insertionSort contactLE sub.contacts).map qsoLine).filter
      isQsoLine = (List.insertionSort contactLE sub.contacts).map qsoLine := by
    apply List.filter_eq_self.mpr
    intro l hl
    rcases List.mem_map.mp hl with ⟨c, -, rfl⟩
    rfl
  rw [show (headerLines sub.info).filter isQsoLine = [] from rfl, h2,
    show ([["END-OF-LOG:"]] : List (List String)).filter isQsoLine = [] from rfl]
  simp

/-- C4: serialization round-trip — for every ContestSubmission whose
Contacts satisfy the §3 invariants and are chronologically ordered,
parsing writeCabrillo's output with StandardLogParser and canonicalizing
the resulting records yields a Contact sequence equal to the submission's
original Contact sequence. -/
theorem claim4_roundTrip (sub : ContestSubmission)
    (hv : ∀ c ∈ sub.contacts, contactValid sub.info c = true)
    (hs : List.Sorted contactLE sub.contacts) :
    (standardLogParse (writeCabrillo sub)).map
        (fun rs => (canonicalizeAll sub.info rs).1) = .ok sub.contacts := by
  have hfil := filter_isQso_writeCabrillo sub
  rw [hs.insertionSort_eq] at hfil
  have hparse : standardLogParse (writeCabrillo sub)
      = .ok (((writeCabrillo sub).filter isQsoLine).enum.map
          fun p => recordOfQsoLine p.1 p.2) := rfl
  rw [hparse, hfil]
  show Except.ok (canonicalizeAll sub.info
      ((List.enumFrom 0 (sub.contacts.map qsoLine)).map
        fun p => recordOfQsoLine p.1 p.2)).1 = _
  rw [canonicalizeAll_enumFrom sub.info 0 sub.contacts hv]

/-- Witness for C4 at a concrete two-contact submission. -/
theorem claim4_witness :
    (standardLogParse (writeCabrillo exSub)).map
        (fun rs => (canonicalizeAll exSub.info rs).1) = .ok exSub.contacts :=
  claim4_roundTrip exSub (by decide) (by decide)

/-- Submission metadata for the counterpart station of the comparison
example. -/
def exInfoB : SubmissionInfo :=
  { callsign := "W1AW"
    year := 2024
    opCategory := "SINGLE-OP"
    stationCategory := "FIXED"
    homeGrid := "FN31"
    power := "10W"
    winStart := ⟨2024, 8, 17, 0, 0⟩
    winEnd := ⟨2024, 9, 22, 23, 59⟩ }

/-- The counterpart station's log: it worked K2UA one minute after K2UA's
logged time. -/
def exSubB : ContestSubmission :=
  ⟨exInfoB,
   [⟨"W1AW", "K2UA", ⟨2024, 8, 17, 18, 1⟩, .b10GHz, "FN31", "FN12FX"⟩], []⟩

/-- Witness for C8: in the comparison of the two sample logs under a
5-minute tolerance, B's only contact (index 0) appears in the report
list. -/
theorem claim8_witness :
    0 ∈ (compareSubmissions 5 exSub exSubB).filterMap MergedQso.bIdx :=
  (claim8_compare_participation 5 exSub exSubB).2.2 0 (by decide)

end ArrlTenGhz
